import Mathlib

/-!
# Shallow embedding of the TurboWarp bytebeat extension (yoog.js)

This file embeds the core of the bytebeat extension: the AudioWorklet
processor (`BytebeatProcessor`), the ScriptProcessor fallback, the
extension-level controller state, the WAV encoder and the formula sanity
check.  JavaScript numbers are modelled as rationals (`ℚ`), 32-bit integer
coercions (`x | 0`, `& 255`, `setUint32`, `setInt16`) explicitly via
`emod`/`Nat.land`, and dynamic compilation (`new Function`) as an abstract
compile environment mapping formula text to an optional callable; a callable
returns `none` when its invocation throws.
-/

namespace Bytebeat

/-! ## JavaScript numeric semantics -/

/-- JS `ToInt32` (the semantics of `x | 0` for integral inputs):
truncation to 32-bit two's complement. -/
def toInt32 (x : Int) : Int := (x + 2 ^ 31) % 2 ^ 32 - 2 ^ 31

/-- JS `ToUint32`: the 32-bit pattern of a value, as a natural number. -/
def toUint32 (x : Int) : Nat := (x % 2 ^ 32).toNat

/-- Reinterpret a 32-bit pattern as a signed 32-bit integer. -/
def int32OfPattern (u : Nat) : Int :=
  if u < 2 ^ 31 then (u : Int) else (u : Int) - 2 ^ 32

/-- JS bitwise `a & b`: both operands pass through `ToInt32`, the 32-bit
patterns are ANDed, and the result is read back as a signed 32-bit value. -/
def jsAnd (a b : Int) : Int :=
  int32OfPattern (Nat.land (toUint32 (toInt32 a)) (toUint32 (toInt32 b)))

/-- JS `Math.floor` on a rational. -/
def jsFloor (x : ℚ) : Int := ⌊x⌋

/-- JS `Math.round`: `floor(x + 1/2)` (halves round toward +∞). -/
def jsRound (x : ℚ) : Int := ⌊x + 1 / 2⌋

/-! ## WaveformQuantizer

Source (worklet `process`, and identically the ScriptProcessor `processFunc`):
`const v8 = (raw | 0) & 255; let sample = (v8 / 128) - 1; sample = sample * vol;`
-/

/-- The per-sample quantization: mask the raw integer to a byte with JS
`(raw | 0) & 255`, recentre to `[-1, 0.992]`, apply linear gain. -/
def quantize (raw : Int) (gain : ℚ) : ℚ :=
  let v8 : Int := jsAnd raw 255
  ((v8 : ℚ) / 128 - 1) * gain

/-! ## The abstract compiler

`new Function('t','s','T','return (' + text + ')|0;')` either yields a
callable or throws at construction time (modelled by `none`).  A constructed
callable, applied to `(t, s, T)`, either returns an integer (already
`|0`-truncated by the generated body) or throws (modelled by `none`). -/

/-- A compiled formula: `(t, s, T) ↦` result, `none` when the call throws. -/
abbrev JSFunc := Int → ℚ → ℚ → Option Int

/-- The dynamic compiler: formula text to an optional callable. -/
structure CompileEnv where
  build : String → Option JSFunc

/-- The constant `ERROR_FALLBACK_FORMULA` from the source header. -/
def ERROR_FALLBACK_FORMULA : String := "t*(t^t+(t>>15|1)^(t-1280^t)>>10)"

/-! ## The AudioWorklet processor (`BytebeatProcessor`) -/

/-- Diagnostics and data sent from the processor to the extension through
the worklet port. -/
inductive WMsg
  | error (message : String)
  | recordChunk (chunk : List ℚ)
deriving DecidableEq

/-- The mutable state of `BytebeatProcessor`. -/
structure WorkletState where
  t : ℚ
  compiled : Option JSFunc
  recording : Bool
  recordBuffer : List ℚ
  recordChunkSize : Nat

/-- Source `BytebeatProcessor._setFormula`: build the requested formula, smoke-test
it once at `(0, 8000, 0)`; on any failure build the fixed fallback (with a
diagnostic), and if that also throws retain no function at all. -/
def workletSetFormula (env : CompileEnv) (st : WorkletState) (text : String) :
    WorkletState × List WMsg :=
  match env.build text with
  | some f =>
    match f 0 8000 0 with
    | some _ => ({ st with compiled := some f }, [])
    | none =>
      match env.build ERROR_FALLBACK_FORMULA with
      | some g =>
          ({ st with compiled := some g },
           [WMsg.error "Compile error; switched to fallback formula"])
      | none =>
          ({ st with compiled := none },
           [WMsg.error "Compile failed and fallback failed"])
  | none =>
    match env.build ERROR_FALLBACK_FORMULA with
    | some g =>
        ({ st with compiled := some g },
         [WMsg.error "Compile error; switched to fallback formula"])
    | none =>
        ({ st with compiled := none },
         [WMsg.error "Compile failed and fallback failed"])

/-- Source `BytebeatProcessor._flushRecord`: emit the buffered samples as one chunk
and clear the buffer (no-op on an empty buffer). -/
def workletFlushRecord (st : WorkletState) : WorkletState × List WMsg :=
  if st.recordBuffer.length > 0 then
    ({ st with recordBuffer := [] }, [WMsg.recordChunk st.recordBuffer])
  else (st, [])

/-- The argument triple `(Math.floor(this.t), currentS, this.t / currentS)`
passed to the compiled function each sample. -/
def workletArgs (st : WorkletState) (currentS : ℚ) : Int × ℚ × ℚ :=
  (jsFloor st.t, currentS, st.t / currentS)

/-- The evaluation step at the top of the sample loop in
`BytebeatProcessor.process`: call the compiled function; on a throw,
recompile the fixed fallback (emitting a diagnostic) and use raw 0; with no
function use raw 0 silently.  Returns (function kept for the next sample,
raw value, diagnostics). -/
def workletEval (env : CompileEnv) (st : WorkletState) (currentS : ℚ) :
    Option JSFunc × Int × List WMsg :=
  let a := workletArgs st currentS
  match st.compiled with
  | some f =>
    match f a.1 a.2.1 a.2.2 with
    | some r => (some f, r, [])
    | none =>
      match env.build ERROR_FALLBACK_FORMULA with
      | some g =>
          (some g, 0,
           [WMsg.error "Runtime error; switched to fallback formula"])
      | none =>
          (none, 0, [WMsg.error "Runtime error and fallback failed"])
  | none => (none, 0, [])

/-- One iteration of the sample loop in `BytebeatProcessor.process`:
evaluate the compiled function, quantize, optionally record (flushing at
the chunk size), advance the clock by `incr`.
Returns (new state, output sample, emitted messages). -/
def workletSample (env : CompileEnv) (st : WorkletState)
    (vol currentS incr : ℚ) : WorkletState × ℚ × List WMsg :=
  let eval := workletEval env st currentS
  let sample := quantize eval.2.1 vol
  let recStep : List ℚ × List WMsg :=
    if st.recording then
      let b := st.recordBuffer ++ [sample]
      if st.recordChunkSize ≤ b.length then ([], [WMsg.recordChunk b])
      else (b, [])
    else (st.recordBuffer, [])
  ({ st with
      t := st.t + incr
      compiled := eval.1
      recordBuffer := recStep.1 },
   sample, eval.2.2 ++ recStep.2)

/-- Control messages accepted by the processor's `port.onmessage` handler. -/
inductive CtrlMsg
  | setFormula (formula : String)
  | record (flag : Bool)
  | setChunkSize (size : Int)
  | resetTime

/-- The `port.onmessage` dispatch of `BytebeatProcessor`. -/
def workletOnMessage (env : CompileEnv) (st : WorkletState) :
    CtrlMsg → WorkletState × List WMsg
  | CtrlMsg.setFormula f => workletSetFormula env st f
  | CtrlMsg.record flag =>
      let st1 := { st with recording := flag }
      if flag then (st1, []) else workletFlushRecord st1
  | CtrlMsg.setChunkSize size =>
      let raw : Int := if size = 0 then (st.recordChunkSize : Int) else size
      ({ st with recordChunkSize := max 128 (min 65536 raw).toNat }, [])
  | CtrlMsg.resetTime => ({ st with t := 0 }, [])

/-! ## The ScriptProcessor fallback

State captured by the closure built in `_createScriptProcessor`: the local
clock `t`, `_scriptCompiledFunc`, `_scriptRecording`, `_scriptRecordBuffer`,
`_scriptRecordChunkSize`. -/

/-- Closure state of the ScriptProcessor fallback. -/
structure ScriptState where
  t : ℚ
  compiledFunc : Option JSFunc
  recording : Bool
  recordBuffer : List ℚ
  recordChunkSize : Nat

/-- The initial compile in `_createScriptProcessor`: build `this.formula`,
smoke-test it at `(0, logicalSampleRate, 0)`; on failure build the fixed
fallback; on a second failure retain nothing. -/
def scriptInitCompile (env : CompileEnv) (formula : String)
    (logicalSampleRate : ℚ) : Option JSFunc :=
  match env.build formula with
  | some f =>
    match f 0 logicalSampleRate 0 with
    | some _ => some f
    | none => env.build ERROR_FALLBACK_FORMULA
  | none => env.build ERROR_FALLBACK_FORMULA

/-- The expression `Math.max(1, self.logicalSampleRate || 8000)` in `processFunc`. -/
def scriptLogicalS (logicalSampleRateField : ℚ) : ℚ :=
  max 1 (if logicalSampleRateField = 0 then 8000 else logicalSampleRateField)

/-- One iteration of the loop in the ScriptProcessor's `processFunc`.
`volume` and `logicalSampleRateField` are read from the extension object
(`self.volume`, `self.logicalSampleRate`); `sr` is the context rate.
Returns (new state, output sample, chunks forwarded to
`_handleNodeMessage`). -/
def scriptSample (env : CompileEnv) (st : ScriptState)
    (volume logicalSampleRateField sr : ℚ) : ScriptState × ℚ × List WMsg :=
  let logicalS : ℚ := scriptLogicalS logicalSampleRateField
  let increment := logicalS / sr
  let eval : Option JSFunc × Int :=
    match st.compiledFunc with
    | some f =>
      match f (jsFloor st.t) logicalS (st.t / logicalS) with
      | some r => (some f, r)
      | none =>
        match env.build ERROR_FALLBACK_FORMULA with
        | some g => (some g, 0)
        | none => (none, 0)
    | none => (none, 0)
  let vol : ℚ := if volume = 0 then 1 else volume
  let sample := quantize eval.2 vol
  let recStep : List ℚ × List WMsg :=
    if st.recording then
      let b := st.recordBuffer ++ [sample]
      if st.recordChunkSize ≤ b.length then ([], [WMsg.recordChunk b])
      else (b, [])
    else (st.recordBuffer, [])
  ({ st with
      t := st.t + increment
      compiledFunc := eval.1
      recordBuffer := recStep.1 },
   sample, recStep.2)

/-- The `_handleScriptMessage` closure installed by `_createScriptProcessor`:
`setFormula` rebuilds without any smoke test and zeroes the local clock on
success (silently substituting the fallback on a construction error);
`record` toggles and flushes on stop; `setChunkSize` clamps; `resetTime`
zeroes the clock. -/
def scriptOnMessage (env : CompileEnv) (st : ScriptState) :
    CtrlMsg → ScriptState × List WMsg
  | CtrlMsg.setFormula text =>
    (match env.build text with
     | some f => { st with compiledFunc := some f, t := 0 }
     | none => { st with compiledFunc := env.build ERROR_FALLBACK_FORMULA },
     [])
  | CtrlMsg.record flag =>
      let st1 := { st with recording := flag }
      if flag then (st1, [])
      else if st1.recordBuffer.length > 0 then
        ({ st1 with recordBuffer := [] }, [WMsg.recordChunk st1.recordBuffer])
      else (st1, [])
  | CtrlMsg.setChunkSize size =>
      let raw : Int := if size = 0 then (st.recordChunkSize : Int) else size
      ({ st with recordChunkSize := max 128 (min 65536 raw).toNat }, [])
  | CtrlMsg.resetTime => ({ st with t := 0 }, [])

/-! ## Extension-level controller (`BytebeatExtension`) -/

/-- The extension fields relevant to recording and playback. -/
structure ExtState where
  isPlayingFlag : Bool
  recording : Bool
  recordedSamples : List ℚ
  recordMaxSamples : Nat
  preferredChunkSize : Nat
  volume : ℚ
  logicalSampleRate : Int
  formula : String

/-- Outward effects of `_handleNodeMessage`. -/
inductive ExtEffect
  | postRecordOff
  | alertMsg (message : String)
deriving DecidableEq

/-- Source `BytebeatExtension._handleNodeMessage` on a `recordChunk` message:
append the chunk to `recordedSamples`; if the accumulated length exceeds
`recordMaxSamples`, stop recording, discard all samples, tell the node to
stop recording and raise an alert.  Playback state is untouched. -/
def handleRecordChunk (st : ExtState) (chunk : List ℚ) :
    ExtState × List ExtEffect :=
  let st1 := { st with recordedSamples := st.recordedSamples ++ chunk }
  if st1.recordMaxSamples < st1.recordedSamples.length then
    ({ st1 with recording := false, recordedSamples := [] },
     [ExtEffect.postRecordOff,
      ExtEffect.alertMsg "Recording stopped — reached maximum allowed length."])
  else (st1, [])

/-! ## Formula sanity policy (`_sanityCheckFormula` and `startFormula`) -/

/-- Occurrence test for a character list inside another (JS
`String.prototype.includes` on code units, specialised to our char model). -/
def hasSubstr (sub : List Char) : List Char → Bool
  | [] => sub.isEmpty
  | c :: rest => sub.isPrefixOf (c :: rest) || hasSubstr sub rest

/-- JS `haystack.includes(needle)`. -/
def jsIncludes (s sub : String) : Bool := hasSubstr sub.toList s.toList

/-- JS `String.prototype.trim`: strip leading and trailing whitespace. -/
def jsTrim (s : String) : String :=
  ⟨((s.toList.dropWhile Char.isWhitespace).reverse.dropWhile
      Char.isWhitespace).reverse⟩

/-- The forbidden-substring list of `_sanityCheckFormula`. -/
def forbiddenTokens : List String :=
  ["while", "for", "function", "=>", "await", "async", "import", "export",
   "constructor", "this", "XMLHttpRequest", "fetch", "setInterval",
   "setTimeout"]

/-- Source `_sanityCheckFormula` succeeds (does not throw) iff no forbidden
substring occurs and the length is at most 2000. -/
def sanityCheckOk (formula : String) : Bool :=
  forbiddenTokens.all (fun f => !(jsIncludes formula f))
    && formula.length ≤ 2000

/-- The formula `startFormula` ends up storing and sending to the backend:
`String(args.FORMULA || this.formula).trim()`, replaced by the fixed
fallback when the sanity check throws. -/
def startFormulaText (input current : String) : String :=
  let text := jsTrim (if input = "" then current else input)
  if sanityCheckOk text then text else ERROR_FALLBACK_FORMULA

/-! ## WAV encoder (`_makeWavBlob`) -/

/-- Little-endian bytes of a 16-bit field (`DataView.setUint16`). -/
def u16le (v : Nat) : List Nat := [v % 256, v / 256 % 256]

/-- Little-endian bytes of a 32-bit field (`DataView.setUint32`). -/
def u32le (v : Nat) : List Nat :=
  [v % 256, v / 256 % 256, v / 65536 % 256, v / 16777216 % 256]

/-- Little-endian bytes of a signed 16-bit field (`DataView.setInt16`). -/
def i16le (v : Int) : List Nat := u16le (v % 65536).toNat

/-- JS `Math.max(-1, Math.min(1, x))`. -/
def jsClamp11 (s : ℚ) : ℚ := max (-1) (min 1 s)

/-- The 16-bit value stored for one sample:
`Math.round(s < 0 ? s * 0x8000 : s * 0x7FFF)` after clamping. -/
def encodeSample (s : ℚ) : Int :=
  jsRound (if jsClamp11 s < 0 then jsClamp11 s * 32768 else jsClamp11 s * 32767)

/-- The 44-byte RIFF/WAVE header written by `_makeWavBlob`, at offsets
0, 4, 8, 12, 16, 20, 22, 24, 28, 32, 34, 36, 40. -/
def wavHeader (len : Nat) (sampleRate : Int) : List Nat :=
  [82, 73, 70, 70] ++ u32le (36 + len * 2)
    ++ [87, 65, 86, 69] ++ [102, 109, 116, 32]
    ++ u32le 16 ++ u16le 1 ++ u16le 1
    ++ u32le (toUint32 sampleRate) ++ u32le (toUint32 (sampleRate * 2))
    ++ u16le 2 ++ u16le 16
    ++ [100, 97, 116, 97] ++ u32le (len * 2)

/-- Source `BytebeatExtension._makeWavBlob`: header then each sample as a
little-endian signed 16-bit value. -/
def makeWavBlob (samples : List ℚ) (sampleRate : Int) : List Nat :=
  wavHeader samples.length sampleRate
    ++ samples.flatMap (fun s => i16le (encodeSample s))

/-- Read back a little-endian 16-bit field starting at `off`. -/
def readU16 (bytes : List Nat) (off : Nat) : Nat :=
  match bytes.drop off with
  | b0 :: b1 :: _ => b0 + 256 * b1
  | [b0] => b0
  | [] => 0

/-- Read back a little-endian 32-bit field starting at `off`. -/
def readU32 (bytes : List Nat) (off : Nat) : Nat :=
  readU16 bytes off + 65536 * readU16 bytes (off + 2)

/-- Read back a little-endian signed 16-bit field starting at `off`. -/
def readI16 (bytes : List Nat) (off : Nat) : Int :=
  if readU16 bytes off < 32768 then (readU16 bytes off : Int)
  else (readU16 bytes off : Int) - 65536

/-! ## JS property lookup on the extension instance

`getInfo` registers the opcode `isPlaying`, whose handler the host fetches
by property lookup on the instance.  The constructor assigns the own data
property `this.isPlaying = false`, which shadows the prototype method
`isPlaying()` declared on the class. -/

/-- A JS value sitting in a property slot. -/
inductive JSVal
  | undef
  | nullv
  | boolv (b : Bool)
  | numv (q : ℚ)
  | strv (s : String)
  | listv (l : List ℚ)
  | closure (tag : String)
  | method (tag : String)
  | hostObj (tag : String)
deriving DecidableEq

/-- The prototype methods declared by `class BytebeatExtension`. -/
def protoMethods : List String :=
  ["getInfo", "startFormula", "stop", "setProperty", "isPlaying",
   "recordStart", "recordStopSave", "exampleFormula",
   "_ensureAudioPrepared", "_startAudio", "_stopAudio", "_postToNode",
   "_handleNodeMessage", "_createScriptProcessor",
   "_recreateScriptProcessor", "_makeWavBlob", "_sanityCheckFormula"]

/-- The opcodes the extension registers with the host in `getInfo`. -/
def declaredOpcodes : List String :=
  ["startFormula", "stop", "setProperty", "isPlaying", "recordStart",
   "recordStopSave", "exampleFormula"]

/-- Own properties assigned by the `BytebeatExtension` constructor. -/
def instanceOwnProps : List (String × JSVal) :=
  [("runtime", JSVal.hostObj "runtime"),
   ("audioCtx", JSVal.nullv),
   ("node", JSVal.nullv),
   ("isPlaying", JSVal.boolv false),
   ("_usingWorklet", JSVal.boolv false),
   ("_workletLoaded", JSVal.boolv false),
   ("logicalSampleRate", JSVal.numv 8000),
   ("volume", JSVal.numv 1),
   ("formula", JSVal.strv "(t*(t>>5|t>>8))>>(t>>16)"),
   ("recording", JSVal.boolv false),
   ("recordedSamples", JSVal.listv []),
   ("recordMaxSamples", JSVal.numv (44100 * 60 * 10)),
   ("preferredChunkSize", JSVal.numv 4096),
   ("_handleScriptMessage", JSVal.closure "noop")]

/-- JS property lookup: own properties shadow the prototype chain. -/
def lookupProp (own : List (String × JSVal)) (name : String) : JSVal :=
  match own.lookup name with
  | some v => v
  | none => if protoMethods.contains name then JSVal.method name
            else JSVal.undef

/-- Only functions (prototype methods or closures) can be invoked. -/
def isCallable : JSVal → Bool
  | JSVal.closure _ => true
  | JSVal.method _ => true
  | _ => false

/-- N iterations of the worklet sample loop with constant volume, logical
rate, and per-sample increment. -/
def workletRun (env : CompileEnv) (vol L incr : ℚ) :
    Nat → WorkletState → WorkletState
  | 0, st => st
  | n + 1, st => workletRun env vol L incr n (workletSample env st vol L incr).1

/-- The worklet constructor state: zero clock, default chunk size, then
`this._setFormula(ERROR_FALLBACK)`. -/
def workletInit (env : CompileEnv) : WorkletState :=
  (workletSetFormula env
    { t := 0, compiled := none, recording := false,
      recordBuffer := [], recordChunkSize := 4096 }
    ERROR_FALLBACK_FORMULA).1

/-! ## Concrete functions, compilers, and states used as test vectors -/

/-- A compiled function that throws on every invocation
(e.g. the body built from the text `q()` — it parses, but the call raises
a ReferenceError). -/
def throwerFunc : JSFunc := fun _ _ _ => none

/-- A compiled function that evaluates everywhere, as the fixed fallback
formula does. -/
def zeroFunc : JSFunc := fun _ _ _ => some 0

/-- A compiler in which nothing builds (both levels of the chain fail). -/
def emptyEnv : CompileEnv := ⟨fun _ => none⟩

/-- A realistic compiler fragment: the fixed fallback formula builds and
evaluates; the text `q()` builds but throws when invoked; other text fails
to build. -/
def cexEnv : CompileEnv where
  build := fun text =>
    if text = ERROR_FALLBACK_FORMULA then some zeroFunc
    else if text = "q()" then some throwerFunc
    else none

/-- A worklet state holding a compiled function that always throws. -/
def wThrowerState : WorkletState :=
  { t := 0, compiled := some throwerFunc, recording := false,
    recordBuffer := [], recordChunkSize := 4096 }

/-- A ScriptProcessor state holding an always-throwing function. -/
def sThrowerState : ScriptState :=
  { t := 0, compiledFunc := some throwerFunc, recording := false,
    recordBuffer := [], recordChunkSize := 4096 }

/-- A ScriptProcessor state mid-stream, with a healthy function and a
nonzero accumulated clock. -/
def scriptClockState : ScriptState :=
  { t := 5, compiledFunc := some zeroFunc, recording := false,
    recordBuffer := [], recordChunkSize := 4096 }

/-- A 2001-character formula text: 2000 spaces of padding before `t`. -/
def paddedFormulaText : String := ⟨List.replicate 2000 ' ' ++ ['t']⟩

/-- A recording worklet state one sample away from a full chunk. -/
def recWState : WorkletState :=
  { t := 0, compiled := none, recording := true,
    recordBuffer := [0], recordChunkSize := 2 }

/-- A recording worklet state with an empty buffer and a healthy compiled
function, used with gain 4. -/
def recGainState : WorkletState :=
  { t := 0, compiled := some zeroFunc, recording := true,
    recordBuffer := [], recordChunkSize := 4096 }

/-- An extension state two accepted samples below a tiny session maximum. -/
def recExtState : ExtState :=
  { isPlayingFlag := true, recording := true, recordedSamples := [0, 0],
    recordMaxSamples := 3, preferredChunkSize := 4096, volume := 1,
    logicalSampleRate := 8000, formula := "x" }

/-! ## Arithmetic facts about the JS coercions -/

lemma toUint32_toInt32 (x : Int) :
    toUint32 (toInt32 x) = (x % 2 ^ 32).toNat := by
  unfold toUint32 toInt32
  congr 1
  have h31 : (2 : Int) ^ 31 = 2147483648 := by norm_num
  have h32 : (2 : Int) ^ 32 = 4294967296 := by norm_num
  rw [h31, h32]
  omega

lemma land_255 (u : Nat) : Nat.land u 255 = u % 256 := by
  have h := Nat.and_pow_two_sub_one_eq_mod u 8
  norm_num at h
  exact h

lemma jsAnd_255 (x : Int) : jsAnd x 255 = x % 256 := by
  have h255 : toUint32 (toInt32 255) = 255 := by decide
  unfold jsAnd
  rw [h255, toUint32_toInt32, land_255]
  unfold int32OfPattern
  have h31 : (2 : Nat) ^ 31 = 2147483648 := by norm_num
  have h32 : (2 : Int) ^ 32 = 4294967296 := by norm_num
  have hlt : (x % 2 ^ 32).toNat % 256 < 2 ^ 31 := by
    rw [h31]; omega
  rw [if_pos hlt, h32]
  omega

lemma quantize_emod (r : Int) (g : ℚ) :
    quantize r g = (((r % 256 : Int) : ℚ) / 128 - 1) * g := by
  unfold quantize
  rw [jsAnd_255]

/-! ## Claim theorems -/

/-- Claim C2: `quantize(r, g)` is exactly the three-step pipeline
(32-bit truncation, mask with 255, recentre, gain), which collapses to
mod-256 aliasing on the raw integer; with gain 1 the residues 0 and 255
map to exactly `-1` and `255/128 - 1`. -/
theorem quantize_spec :
    (∀ (r : Int) (g : ℚ),
        quantize r g = (((r % 256 : Int) : ℚ) / 128 - 1) * g)
      ∧ (∀ r : Int, r % 256 = 0 → quantize r 1 = -1)
      ∧ (∀ r : Int, r % 256 = 255 → quantize r 1 = 255 / 128 - 1) := by
  refine ⟨quantize_emod, ?_, ?_⟩
  · intro r h
    rw [quantize_emod, h]
    norm_num
  · intro r h
    rw [quantize_emod, h]
    norm_num

/-- Claim C2 witness: concrete residues, including a negative raw value
aliasing through two's-complement masking. -/
theorem quantize_spec_witness :
    quantize 256 1 = -1 ∧ quantize (-256) 1 = -1
      ∧ quantize 511 1 = 255 / 128 - 1 ∧ quantize (-1) 1 = 255 / 128 - 1 :=
  ⟨quantize_spec.2.1 256 (by decide), quantize_spec.2.1 (-256) (by decide),
   quantize_spec.2.2 511 (by decide), quantize_spec.2.2 (-1) (by decide)⟩

lemma workletSample_t (env : CompileEnv) (st : WorkletState)
    (vol s incr : ℚ) : (workletSample env st vol s incr).1.t = st.t + incr :=
  rfl

lemma workletSetFormula_t (env : CompileEnv) (st : WorkletState)
    (text : String) : (workletSetFormula env st text).1.t = st.t := by
  unfold workletSetFormula
  cases h : env.build text with
  | none =>
    cases hf : env.build ERROR_FALLBACK_FORMULA <;> simp
  | some f =>
    cases hs : f 0 8000 0 with
    | none => cases hf : env.build ERROR_FALLBACK_FORMULA <;> simp [hs, hf]
    | some v => simp [hs]

lemma workletRun_t (env : CompileEnv) (vol L incr : ℚ) :
    ∀ (n : Nat) (st : WorkletState),
      (workletRun env vol L incr n st).t = st.t + n * incr := by
  intro n
  induction n with
  | zero => intro st; simp [workletRun]
  | succ n ih =>
    intro st
    rw [workletRun, ih, workletSample_t]
    push_cast
    ring

lemma workletInit_t (env : CompileEnv) : (workletInit env).t = 0 := by
  unfold workletInit
  rw [workletSetFormula_t]

/-- Claim C6: starting from the constructor state, after `N` physical
samples at constant logical rate `L` and physical rate `P` the accumulated
logical clock is exactly `N * L / P`; at every step `k` the formula receives
`t = ⌊accumulated⌋` and `T = accumulated / L`; and the `resetTime` message
sets the clock back to exactly 0. -/
theorem sample_clock_spec (env : CompileEnv) (vol L P : ℚ) (N : Nat) :
    (workletRun env vol L (L / P) N (workletInit env)).t = N * L / P
      ∧ (∀ k : Nat,
          workletArgs (workletRun env vol L (L / P) k (workletInit env)) L
            = (jsFloor ((k : ℚ) * L / P), L, ((k : ℚ) * L / P) / L))
      ∧ ∀ st : WorkletState,
          (workletOnMessage env st CtrlMsg.resetTime).1.t = 0 := by
  have hrun : ∀ k : Nat,
      (workletRun env vol L (L / P) k (workletInit env)).t = (k : ℚ) * L / P := by
    intro k
    rw [workletRun_t, workletInit_t, zero_add, mul_div_assoc]
  refine ⟨hrun N, ?_, ?_⟩
  · intro k
    unfold workletArgs
    rw [hrun k]
  · intro st
    rfl

/-- Claim C10 (code bug): the extension registers the boolean block opcode
`isPlaying` and declares a prototype method of that name, but the
constructor's own data property `this.isPlaying = false` shadows the method,
so host property lookup yields a non-callable boolean — before and after
`_startAudio` flips the flag. -/
theorem isPlaying_shadowed_by_own_prop :
    declaredOpcodes.contains "isPlaying" = true
      ∧ protoMethods.contains "isPlaying" = true
      ∧ lookupProp instanceOwnProps "isPlaying" = JSVal.boolv false
      ∧ isCallable (lookupProp instanceOwnProps "isPlaying") = false
      ∧ isCallable
          (lookupProp (("isPlaying", JSVal.boolv true) :: instanceOwnProps)
            "isPlaying") = false := by
  decide

/-! ## Failure-policy helper lemmas -/

lemma workletSample_none (env : CompileEnv) (st : WorkletState)
    (vol s incr : ℚ) (h : st.compiled = none) :
    (workletSample env st vol s incr).2.1 = quantize 0 vol
      ∧ (workletSample env st vol s incr).1.compiled = none := by
  unfold workletSample workletEval
  simp [h]

lemma workletSample_throw (env : CompileEnv) (st : WorkletState)
    (vol s incr : ℚ) (f : JSFunc) (h1 : st.compiled = some f)
    (h2 : f (workletArgs st s).1 (workletArgs st s).2.1
            (workletArgs st s).2.2 = none) :
    (workletSample env st vol s incr).2.1 = quantize 0 vol
      ∧ (workletSample env st vol s incr).1.compiled
          = env.build ERROR_FALLBACK_FORMULA := by
  unfold workletSample workletEval
  simp only [h1, h2]
  cases henv : env.build ERROR_FALLBACK_FORMULA <;> simp [henv]

lemma scriptSample_none (env : CompileEnv) (st : ScriptState)
    (vol Lf sr : ℚ) (h : st.compiledFunc = none) :
    (scriptSample env st vol Lf sr).2.1
        = quantize 0 (if vol = 0 then 1 else vol)
      ∧ (scriptSample env st vol Lf sr).1.compiledFunc = none := by
  unfold scriptSample
  simp [h]

lemma scriptSample_throw (env : CompileEnv) (st : ScriptState)
    (vol Lf sr : ℚ) (f : JSFunc) (h1 : st.compiledFunc = some f)
    (h2 : f (jsFloor st.t) (scriptLogicalS Lf)
            (st.t / scriptLogicalS Lf) = none) :
    (scriptSample env st vol Lf sr).2.1
        = quantize 0 (if vol = 0 then 1 else vol)
      ∧ (scriptSample env st vol Lf sr).1.compiledFunc
          = env.build ERROR_FALLBACK_FORMULA := by
  unfold scriptSample
  simp only [h1, h2]
  cases henv : env.build ERROR_FALLBACK_FORMULA <;> simp [henv]

/-- Claim C4: on both backends, a thrown evaluation makes that sample's raw
value 0 (so the emitted sample is `quantize 0 gain`) and recompiles the
fixed fallback as the compiled function for subsequent samples; when no
compiled function is held, every sample's raw value is 0 and the state
stays function-free. -/
theorem runtime_failure_policy (env : CompileEnv) (st : WorkletState)
    (sst : ScriptState) (vol s incr Lf sr : ℚ) (f g : JSFunc) :
    (st.compiled = some f →
        f (workletArgs st s).1 (workletArgs st s).2.1
            (workletArgs st s).2.2 = none →
        (workletSample env st vol s incr).2.1 = quantize 0 vol
          ∧ (workletSample env st vol s incr).1.compiled
              = env.build ERROR_FALLBACK_FORMULA)
      ∧ (st.compiled = none →
          (workletSample env st vol s incr).2.1 = quantize 0 vol
            ∧ (workletSample env st vol s incr).1.compiled = none)
      ∧ (sst.compiledFunc = some g →
          g (jsFloor sst.t) (scriptLogicalS Lf)
              (sst.t / scriptLogicalS Lf) = none →
          (scriptSample env sst vol Lf sr).2.1
              = quantize 0 (if vol = 0 then 1 else vol)
            ∧ (scriptSample env sst vol Lf sr).1.compiledFunc
                = env.build ERROR_FALLBACK_FORMULA)
      ∧ (sst.compiledFunc = none →
          (scriptSample env sst vol Lf sr).2.1
              = quantize 0 (if vol = 0 then 1 else vol)
            ∧ (scriptSample env sst vol Lf sr).1.compiledFunc = none) :=
  ⟨fun h1 h2 => workletSample_throw env st vol s incr f h1 h2,
   fun h => workletSample_none env st vol s incr h,
   fun h1 h2 => scriptSample_throw env sst vol Lf sr g h1 h2,
   fun h => scriptSample_none env sst vol Lf sr h⟩

/-- Claim C4 witness: with a compiler in which even the fallback fails to
build, a throwing function yields the silent sample and the compiled slot
is dropped, on both backends. -/
theorem runtime_failure_policy_witness :
    ((workletSample emptyEnv wThrowerState 2 8000 1).2.1 = quantize 0 2
      ∧ (workletSample emptyEnv wThrowerState 2 8000 1).1.compiled
          = emptyEnv.build ERROR_FALLBACK_FORMULA)
    ∧ ((scriptSample emptyEnv sThrowerState 2 8000 44100).2.1
          = quantize 0 (if (2 : ℚ) = 0 then 1 else 2)
      ∧ (scriptSample emptyEnv sThrowerState 2 8000 44100).1.compiledFunc
          = emptyEnv.build ERROR_FALLBACK_FORMULA) :=
  ⟨(runtime_failure_policy emptyEnv wThrowerState sThrowerState
      2 8000 1 8000 44100 throwerFunc throwerFunc).1 rfl rfl,
   (runtime_failure_policy emptyEnv wThrowerState sThrowerState
      2 8000 44100 8000 44100 throwerFunc throwerFunc).2.2.1 rfl rfl⟩

/-- Claim C1 counterexample: the ScriptProcessor's live `setFormula`
message path installs the freshly built function with no smoke test, so a
formula that compiles but throws on the neutral inputs `(0, 8000, 0)` is
handed back as the compiled function. -/
theorem scriptSetFormula_no_smoke_cex :
    (scriptOnMessage cexEnv scriptClockState
        (CtrlMsg.setFormula "q()")).1.compiledFunc = some throwerFunc
      ∧ throwerFunc 0 8000 0 = none := by
  refine ⟨?_, rfl⟩
  simp [scriptOnMessage, cexEnv, ERROR_FALLBACK_FORMULA]

/-- Claim C1 (amended): on the worklet `_setFormula` path the two-level
fallback chain holds — a requested formula that builds and passes the
`(0, 8000, 0)` smoke test is used as-is; a build or smoke-test failure
switches to the compiled fixed fallback with a diagnostic; if nothing is
retained every sample is the raw-0 silent sample — and whatever is retained
never throws on the neutral inputs provided the fallback's build does not.
The ScriptProcessor live `setFormula` message path, in contrast, installs
whatever builds, unconditionally. -/
theorem compile_fallback_chain_amended (env : CompileEnv) (st : WorkletState)
    (sst : ScriptState) (text : String)
    (hfb : ∀ g, env.build ERROR_FALLBACK_FORMULA = some g →
        g 0 8000 0 ≠ none) :
    (∀ f v, env.build text = some f → f 0 8000 0 = some v →
        (workletSetFormula env st text).1.compiled = some f
          ∧ (workletSetFormula env st text).2 = [])
      ∧ (env.build text = none
            ∨ (∃ f, env.build text = some f ∧ f 0 8000 0 = none) →
          (workletSetFormula env st text).1.compiled
              = env.build ERROR_FALLBACK_FORMULA
            ∧ (workletSetFormula env st text).2 ≠ [])
      ∧ (∀ h, (workletSetFormula env st text).1.compiled = some h →
          h 0 8000 0 ≠ none)
      ∧ ((workletSetFormula env st text).1.compiled = none →
          ∀ vol s incr,
            (workletSample env (workletSetFormula env st text).1
                vol s incr).2.1 = quantize 0 vol)
      ∧ (∀ f, env.build text = some f →
          (scriptOnMessage env sst (CtrlMsg.setFormula text)).1.compiledFunc
            = some f) := by
  refine ⟨?_, ?_, ?_, ?_, ?_⟩
  · intro f v hb hs
    unfold workletSetFormula
    simp [hb, hs]
  · intro hcase
    unfold workletSetFormula
    rcases hcase with hb | ⟨f, hb, hs⟩ <;>
      [skip; simp only [hb, hs]] <;>
      [simp only [hb]; skip] <;>
      cases henv : env.build ERROR_FALLBACK_FORMULA <;> simp [henv]
  · intro h hcomp
    unfold workletSetFormula at hcomp
    cases hb : env.build text with
    | some f =>
      cases hs : f 0 8000 0 with
      | some v =>
        simp [hb, hs] at hcomp
        subst hcomp
        simp [hs]
      | none =>
        cases henv : env.build ERROR_FALLBACK_FORMULA with
        | some g =>
          simp [hb, hs, henv] at hcomp
          subst hcomp
          exact hfb _ henv
        | none => simp [hb, hs, henv] at hcomp
    | none =>
      cases henv : env.build ERROR_FALLBACK_FORMULA with
      | some g =>
        simp [hb, henv] at hcomp
        subst hcomp
        exact hfb _ henv
      | none => simp [hb, henv] at hcomp
  · intro hnone vol s incr
    exact (workletSample_none env _ vol s incr hnone).1
  · intro f hb
    simp [scriptOnMessage, hb]

/-- Claim C1 witness: in the concrete environment where `q()` builds but
throws, the worklet path lands on the compiled fallback and emits a
diagnostic. -/
theorem compile_fallback_chain_amended_witness :
    (workletSetFormula cexEnv wThrowerState "q()").1.compiled
        = cexEnv.build ERROR_FALLBACK_FORMULA
      ∧ (workletSetFormula cexEnv wThrowerState "q()").2 ≠ [] :=
  (compile_fallback_chain_amended cexEnv wThrowerState scriptClockState "q()"
      (by
        intro g hg
        simp [cexEnv] at hg
        subst hg
        simp [zeroFunc])).2.1
    (Or.inr ⟨throwerFunc, by simp [cexEnv, ERROR_FALLBACK_FORMULA], rfl⟩)

/-- Claim C9 counterexample: a live `setFormula` on the ScriptProcessor
backend zeroes the accumulated logical clock (here from 5 to 0). -/
theorem scriptSetFormula_resets_clock_cex :
    scriptClockState.t = 5
      ∧ (scriptOnMessage cexEnv scriptClockState
          (CtrlMsg.setFormula "q()")).1.t = 0 := by
  refine ⟨rfl, ?_⟩
  simp [scriptOnMessage, cexEnv, ERROR_FALLBACK_FORMULA]

/-- Claim C9 (amended): a formula update leaves the clock untouched on the
worklet backend; on the ScriptProcessor backend a formula update whose
build succeeds resets the clock to 0, and one whose build fails leaves it
unchanged. -/
theorem setFormula_clock_amended (env : CompileEnv) (st : WorkletState)
    (sst : ScriptState) (text : String) :
    (workletSetFormula env st text).1.t = st.t
      ∧ (∀ f, env.build text = some f →
          (scriptOnMessage env sst (CtrlMsg.setFormula text)).1.t = 0)
      ∧ (env.build text = none →
          (scriptOnMessage env sst (CtrlMsg.setFormula text)).1.t = sst.t) := by
  refine ⟨workletSetFormula_t env st text, ?_, ?_⟩
  · intro f hb
    simp [scriptOnMessage, hb]
  · intro hb
    simp [scriptOnMessage, hb]

/-- Claim C9 witness: concrete updates on both backends. -/
theorem setFormula_clock_amended_witness :
    (workletSetFormula cexEnv wThrowerState "q()").1.t = wThrowerState.t
      ∧ (scriptOnMessage cexEnv scriptClockState
          (CtrlMsg.setFormula "q()")).1.t = 0
      ∧ (scriptOnMessage cexEnv scriptClockState
          (CtrlMsg.setFormula "zzz")).1.t = scriptClockState.t :=
  ⟨(setFormula_clock_amended cexEnv wThrowerState scriptClockState "q()").1,
   (setFormula_clock_amended cexEnv wThrowerState scriptClockState "q()").2.1
      throwerFunc (by simp [cexEnv, ERROR_FALLBACK_FORMULA]),
   (setFormula_clock_amended cexEnv wThrowerState scriptClockState "zzz").2.2
      (by simp [cexEnv, ERROR_FALLBACK_FORMULA])⟩

/-! ## Substring occurrence and whitespace trimming -/

lemma isPrefixOf_iff (sub : List Char) :
    ∀ l : List Char, sub.isPrefixOf l = true ↔ ∃ t, l = sub ++ t := by
  induction sub with
  | nil =>
    intro l
    simp [List.isPrefixOf]
  | cons c cs ih =>
    intro l
    cases l with
    | nil =>
      simp [List.isPrefixOf]
    | cons x xs =>
      simp only [List.isPrefixOf, Bool.and_eq_true, beq_iff_eq, ih,
        List.cons_append, List.cons.injEq]
      constructor
      · rintro ⟨rfl, t, rfl⟩
        exact ⟨t, rfl, rfl⟩
      · rintro ⟨t, rfl, ht⟩
        exact ⟨rfl, t, ht⟩

lemma hasSubstr_iff (sub l : List Char) :
    hasSubstr sub l = true ↔ ∃ a b, l = a ++ (sub ++ b) := by
  induction l with
  | nil =>
    simp only [hasSubstr, List.isEmpty_iff]
    constructor
    · rintro rfl
      exact ⟨[], [], rfl⟩
    · rintro ⟨a, b, hab⟩
      have h2 := hab.symm
      simp only [List.append_eq_nil] at h2
      exact h2.2.1
  | cons c rest ih =>
    simp only [hasSubstr, Bool.or_eq_true, ih, isPrefixOf_iff]
    constructor
    · rintro (⟨tail, htail⟩ | ⟨a, b, hab⟩)
      · exact ⟨[], tail, by simp [htail]⟩
      · exact ⟨c :: a, b, by simp [hab]⟩
    · rintro ⟨a, b, hab⟩
      cases a with
      | nil =>
        exact Or.inl ⟨b, by simpa using hab⟩
      | cons x a2 =>
        simp only [List.cons_append, List.cons.injEq] at hab
        exact Or.inr ⟨a2, b, hab.2⟩

lemma infix_dropWhile_ws (sub : List Char) (hne : sub ≠ [])
    (hws : ∀ c ∈ sub, ¬ c.isWhitespace) :
    ∀ (a b l : List Char), l = a ++ (sub ++ b) →
      ∃ a2 b2, l.dropWhile Char.isWhitespace = a2 ++ (sub ++ b2) := by
  intro a
  induction a with
  | nil =>
    intro b l hl
    subst hl
    cases sub with
    | nil => exact absurd rfl hne
    | cons c s2 =>
      have hc : c.isWhitespace = false := by
        have := hws c (List.mem_cons_self c s2)
        simpa using this
      rw [List.nil_append, List.cons_append, List.dropWhile_cons]
      simp only [hc]
      exact ⟨[], b, rfl⟩
  | cons x a2 ih =>
    intro b l hl
    subst hl
    rw [List.cons_append, List.dropWhile_cons]
    by_cases hx : x.isWhitespace
    · simp only [hx, if_true]
      exact ih b _ rfl
    · simp only [Bool.not_eq_true] at hx
      simp only [hx]
      exact ⟨x :: a2, b, by simp⟩

lemma hasSubstr_trim (sub : List Char) (hne : sub ≠ [])
    (hws : ∀ c ∈ sub, ¬ c.isWhitespace) (l : List Char)
    (h : hasSubstr sub l = true) :
    hasSubstr sub
      (((l.dropWhile Char.isWhitespace).reverse.dropWhile
          Char.isWhitespace).reverse) = true := by
  rw [hasSubstr_iff] at h ⊢
  obtain ⟨a, b, hab⟩ := h
  obtain ⟨a2, b2, h2⟩ := infix_dropWhile_ws sub hne hws a b l hab
  have hrev : (l.dropWhile Char.isWhitespace).reverse
      = b2.reverse ++ (sub.reverse ++ a2.reverse) := by
    rw [h2]
    simp [List.reverse_append, List.append_assoc]
  have hne2 : sub.reverse ≠ [] := by
    simpa using hne
  have hws2 : ∀ c ∈ sub.reverse, ¬ c.isWhitespace := fun c hc =>
    hws c (List.mem_reverse.mp hc)
  obtain ⟨a3, b3, h3⟩ :=
    infix_dropWhile_ws sub.reverse hne2 hws2 b2.reverse a2.reverse _ hrev
  refine ⟨b3.reverse, a3.reverse, ?_⟩
  rw [h3]
  simp [List.reverse_append, List.append_assoc]

lemma forbidden_nonempty_nonws :
    ∀ tok ∈ forbiddenTokens,
      tok.toList ≠ [] ∧ ∀ c ∈ tok.toList, ¬ c.isWhitespace := by
  decide

lemma dropWhile_ws_pad (n : Nat) :
    (List.replicate n ' ' ++ ['t']).dropWhile Char.isWhitespace = ['t'] := by
  induction n with
  | zero => decide
  | succ n ih =>
    rw [List.replicate_succ, List.cons_append, List.dropWhile_cons]
    have hsp : (' ' : Char).isWhitespace = true := by decide
    simp only [hsp, if_true]
    exact ih

/-- Claim C5 counterexample: the length arm of the sanity policy runs on
the *trimmed* text, so a text of 2001 characters (2000 spaces then `t`)
sails through and `start` ends up with the trimmed original, not the fixed
fallback. -/
theorem startFormula_untrimmed_length_cex :
    2000 < paddedFormulaText.length
      ∧ startFormulaText paddedFormulaText "x" = "t"
      ∧ ("t" : String) ≠ ERROR_FALLBACK_FORMULA := by
  have hlen : paddedFormulaText.length = 2001 := by
    show (List.replicate 2000 ' ' ++ ['t']).length = 2001
    rw [List.length_append, List.length_replicate]
    rfl
  have hne : paddedFormulaText ≠ "" := by
    intro h
    rw [h] at hlen
    exact absurd hlen (by decide)
  have hdata : paddedFormulaText.toList = List.replicate 2000 ' ' ++ ['t'] :=
    rfl
  have htrim : jsTrim paddedFormulaText = "t" := by
    unfold jsTrim
    rw [hdata, dropWhile_ws_pad]
    rfl
  refine ⟨by rw [hlen]; norm_num, ?_, by decide⟩
  unfold startFormulaText
  rw [if_neg hne, htrim]
  have hok : sanityCheckOk "t" = true := by decide
  simp only [hok, if_true]

/-- Claim C5 (amended): `start` replaces the text with the fixed fallback
whenever the text contains a forbidden substring, or whenever the *trimmed*
text (the value actually checked, after `String(...).trim()`) exceeds 2000
characters. -/
theorem startFormula_policy_amended (input current : String)
    (h : (∃ tok ∈ forbiddenTokens, jsIncludes input tok = true)
        ∨ 2000 < (jsTrim (if input = "" then current else input)).length) :
    startFormulaText input current = ERROR_FALLBACK_FORMULA := by
  unfold startFormulaText
  set text := if input = "" then current else input with htext
  have hbad : ¬ sanityCheckOk (jsTrim text) = true := by
    intro hok
    unfold sanityCheckOk at hok
    rw [Bool.and_eq_true] at hok
    obtain ⟨hall, hlen⟩ := hok
    rcases h with ⟨tok, htok, hinc⟩ | hlong
    · have hfacts := forbidden_nonempty_nonws tok htok
      by_cases hin : input = ""
      · rw [hin] at hinc
        unfold jsIncludes at hinc
        have : tok.toList.isEmpty = true := hinc
        rw [List.isEmpty_iff] at this
        exact hfacts.1 this
      · have htxt : text = input := if_neg hin
        have hsurv : jsIncludes (jsTrim text) tok = true := by
          unfold jsIncludes
          rw [htxt]
          exact hasSubstr_trim tok.toList hfacts.1 hfacts.2 input.toList hinc
        have := List.all_eq_true.mp hall tok htok
        rw [hsurv] at this
        exact absurd this (by decide)
    · have := of_decide_eq_true hlen
      omega
  rw [if_neg hbad]

/-- Claim C5 witness: a text containing the forbidden substring `this` is
replaced by the fixed fallback. -/
theorem startFormula_policy_amended_witness :
    startFormulaText "2*this" "x" = ERROR_FALLBACK_FORMULA :=
  startFormula_policy_amended "2*this" "x"
    (Or.inl ⟨"this", by decide, by decide⟩)

/-! ## Recording buffer lemmas -/

lemma workletEval_no_chunk (env : CompileEnv) (st : WorkletState) (s : ℚ) :
    ∀ c, WMsg.recordChunk c ∉ (workletEval env st s).2.2 := by
  intro c
  unfold workletEval
  cases st.compiled with
  | none => simp
  | some f =>
    cases hf : f (workletArgs st s).1 (workletArgs st s).2.1
        (workletArgs st s).2.2 with
    | some r => simp [hf]
    | none =>
      cases henv : env.build ERROR_FALLBACK_FORMULA <;> simp [hf, henv]

lemma workletSample_noRec (env : CompileEnv) (st : WorkletState)
    (vol s incr : ℚ) (h : st.recording = false) :
    (workletSample env st vol s incr).1.recordBuffer = st.recordBuffer
      ∧ (workletSample env st vol s incr).2.2 = (workletEval env st s).2.2 := by
  unfold workletSample
  simp [h]

lemma workletSample_push (env : CompileEnv) (st : WorkletState)
    (vol s incr : ℚ) (h1 : st.recording = true)
    (h2 : st.recordBuffer.length + 1 < st.recordChunkSize) :
    (workletSample env st vol s incr).1.recordBuffer
        = st.recordBuffer ++ [(workletSample env st vol s incr).2.1]
      ∧ (workletSample env st vol s incr).2.2 = (workletEval env st s).2.2 := by
  unfold workletSample
  have hcond : ¬ st.recordChunkSize ≤ st.recordBuffer.length + 1 := by
    omega
  simp [h1, hcond]

lemma workletSample_flush (env : CompileEnv) (st : WorkletState)
    (vol s incr : ℚ) (h1 : st.recording = true)
    (h2 : st.recordChunkSize ≤ st.recordBuffer.length + 1) :
    (workletSample env st vol s incr).1.recordBuffer = []
      ∧ (workletSample env st vol s incr).2.2
          = (workletEval env st s).2.2
            ++ [WMsg.recordChunk
                (st.recordBuffer ++ [(workletSample env st vol s incr).2.1])] := by
  unfold workletSample
  simp [h1, h2]

/-- Claim C7: during recording with a fixed chunk size, the un-flushed
worklet buffer strictly below the chunk size stays strictly below it after
a sample, any chunk emitted carries at most chunkSize samples, the flush
happens exactly when the buffer reaches the chunk size; and on the
extension side the accumulated recording never ends a message above the
session maximum — exceeding it forces recording (but not playback) off,
clears the buffer to zero length, and raises the diagnostic. -/
theorem recording_bounds_spec (env : CompileEnv) (st : WorkletState)
    (vol s incr : ℚ) (ext : ExtState) (chunk : List ℚ) :
    (st.recordBuffer.length < st.recordChunkSize →
        (workletSample env st vol s incr).1.recordBuffer.length
            < st.recordChunkSize
          ∧ ∀ c, WMsg.recordChunk c ∈ (workletSample env st vol s incr).2.2 →
              c.length ≤ st.recordChunkSize)
      ∧ (st.recording = true →
          st.recordBuffer.length + 1 = st.recordChunkSize →
          (workletSample env st vol s incr).1.recordBuffer = []
            ∧ WMsg.recordChunk
                (st.recordBuffer ++ [(workletSample env st vol s incr).2.1])
                ∈ (workletSample env st vol s incr).2.2)
      ∧ (st.recording = true →
          st.recordBuffer.length + 1 < st.recordChunkSize →
          (workletSample env st vol s incr).1.recordBuffer
              = st.recordBuffer ++ [(workletSample env st vol s incr).2.1]
            ∧ ∀ c, WMsg.recordChunk c ∉ (workletSample env st vol s incr).2.2)
      ∧ ((handleRecordChunk ext chunk).1.recordedSamples.length
            ≤ ext.recordMaxSamples)
      ∧ (ext.recordMaxSamples < ext.recordedSamples.length + chunk.length →
          (handleRecordChunk ext chunk).1.recording = false
            ∧ (handleRecordChunk ext chunk).1.recordedSamples = []
            ∧ (handleRecordChunk ext chunk).1.isPlayingFlag = ext.isPlayingFlag
            ∧ ExtEffect.alertMsg
                "Recording stopped — reached maximum allowed length."
                ∈ (handleRecordChunk ext chunk).2) := by
  refine ⟨?_, ?_, ?_, ?_, ?_⟩
  · intro hlt
    cases hrec : st.recording with
    | false =>
      obtain ⟨hbuf, hmsg⟩ := workletSample_noRec env st vol s incr hrec
      rw [hbuf, hmsg]
      exact ⟨hlt, fun c hc => absurd hc (workletEval_no_chunk env st s c)⟩
    | true =>
      by_cases hsz : st.recordChunkSize ≤ st.recordBuffer.length + 1
      · obtain ⟨hbuf, hmsg⟩ := workletSample_flush env st vol s incr hrec hsz
        rw [hbuf, hmsg]
        refine ⟨by simp only [List.length_nil]; omega, ?_⟩
        intro c hc
        rcases List.mem_append.mp hc with hc1 | hc1
        · exact absurd hc1 (workletEval_no_chunk env st s c)
        · rcases List.mem_singleton.mp hc1 with h
          have : c = st.recordBuffer
              ++ [(workletSample env st vol s incr).2.1] :=
            WMsg.recordChunk.inj h
          rw [this, List.length_append]
          simp only [List.length_cons, List.length_nil]
          omega
      · have hsz2 : st.recordBuffer.length + 1 < st.recordChunkSize := by
          omega
        obtain ⟨hbuf, hmsg⟩ := workletSample_push env st vol s incr hrec hsz2
        rw [hbuf, hmsg]
        refine ⟨?_, fun c hc => absurd hc (workletEval_no_chunk env st s c)⟩
        rw [List.length_append]
        simp only [List.length_cons, List.length_nil]
        omega
  · intro hrec hfull
    obtain ⟨hbuf, hmsg⟩ :=
      workletSample_flush env st vol s incr hrec (by omega)
    rw [hbuf, hmsg]
    exact ⟨rfl, List.mem_append.mpr (Or.inr (List.mem_singleton.mpr rfl))⟩
  · intro hrec hroom
    obtain ⟨hbuf, hmsg⟩ := workletSample_push env st vol s incr hrec hroom
    rw [hbuf, hmsg]
    exact ⟨rfl, fun c hc => absurd hc (workletEval_no_chunk env st s c)⟩
  · unfold handleRecordChunk
    simp only [List.length_append]
    by_cases hover : ext.recordMaxSamples
        < ext.recordedSamples.length + chunk.length
    · simp [hover]
    · simp only [hover, if_false]
      simp only [List.length_append]
      omega
  · intro hover
    unfold handleRecordChunk
    simp only [List.length_append]
    simp [hover]

/-- Claim C7 witness: a one-away-from-full buffer flushes exactly at the
chunk size, and a chunk pushing the total past the maximum forces the stop
path with the buffer cleared and playback untouched. -/
theorem recording_bounds_spec_witness :
    ((workletSample emptyEnv recWState 1 8000 1).1.recordBuffer = []
      ∧ WMsg.recordChunk
          (recWState.recordBuffer
            ++ [(workletSample emptyEnv recWState 1 8000 1).2.1])
          ∈ (workletSample emptyEnv recWState 1 8000 1).2.2)
    ∧ ((handleRecordChunk recExtState [0, 0]).1.recording = false
      ∧ (handleRecordChunk recExtState [0, 0]).1.recordedSamples = []
      ∧ (handleRecordChunk recExtState [0, 0]).1.isPlayingFlag
          = recExtState.isPlayingFlag
      ∧ ExtEffect.alertMsg
          "Recording stopped — reached maximum allowed length."
          ∈ (handleRecordChunk recExtState [0, 0]).2) :=
  ⟨(recording_bounds_spec emptyEnv recWState 1 8000 1 recExtState [0, 0]).2.1
      rfl rfl,
   (recording_bounds_spec emptyEnv recWState 1 8000 1
      recExtState [0, 0]).2.2.2.2 (by decide)⟩

/-! ## Clamping lemmas for the recording/export path -/

lemma jsClamp11_idem (q : ℚ) : jsClamp11 (jsClamp11 q) = jsClamp11 q := by
  unfold jsClamp11
  have h1 : max (-1 : ℚ) (min 1 q) ≤ 1 :=
    max_le (by norm_num) (min_le_left _ _)
  rw [min_eq_right h1, ← max_assoc, max_self]

lemma encodeSample_bounds (q : ℚ) :
    -32768 ≤ encodeSample q ∧ encodeSample q ≤ 32767 := by
  unfold encodeSample jsRound
  have hc1 : (-1 : ℚ) ≤ jsClamp11 q := le_max_left _ _
  have hc2 : jsClamp11 q ≤ 1 := max_le (by norm_num) (min_le_left _ _)
  set c := jsClamp11 q with hc
  split_ifs with h
  · constructor
    · rw [Int.le_floor]
      push_cast
      nlinarith
    · have hup : ⌊c * 32768 + 1 / 2⌋ < 32768 := by
        rw [Int.floor_lt]
        push_cast
        nlinarith
      omega
  · constructor
    · rw [Int.le_floor]
      push_cast
      nlinarith
    · have hup : ⌊c * 32767 + 1 / 2⌋ < 32768 := by
        rw [Int.floor_lt]
        push_cast
        nlinarith
      omega

/-- Claim C8 counterexample: with gain 4 (the parameter maximum) and raw
value 0, the recording buffer stores exactly `-4`, far outside `[-1, 1]` —
no clamping happens on push. -/
theorem record_push_unclamped_cex :
    (workletSample cexEnv recGainState 4 8000 1).1.recordBuffer = [-4]
      ∧ ((-4 : ℚ) < -1) := by
  constructor
  · show (workletSample cexEnv recGainState 4 8000 1).1.recordBuffer = [-4]
    unfold workletSample workletEval recGainState
    norm_num [quantize, jsAnd_255, zeroFunc]
  · norm_num

/-- Claim C8 (amended): the value pushed into the recording buffer is the
output sample itself, unclamped (so gains above 1 store values outside
`[-1, 1]`); clamping to `[-1, 1]` happens only at WAV-encoding time, where
the encoded 16-bit value depends only on the clamped sample and always fits
in `[-32768, 32767]`. -/
theorem record_push_amended (env : CompileEnv) (st : WorkletState)
    (vol s incr : ℚ) (h1 : st.recording = true)
    (h2 : st.recordBuffer.length + 1 < st.recordChunkSize) :
    (workletSample env st vol s incr).1.recordBuffer
        = st.recordBuffer ++ [(workletSample env st vol s incr).2.1]
      ∧ (∀ q : ℚ, encodeSample q = encodeSample (jsClamp11 q))
      ∧ (∀ q : ℚ, -32768 ≤ encodeSample q ∧ encodeSample q ≤ 32767) := by
  refine ⟨(workletSample_push env st vol s incr h1 h2).1, ?_, encodeSample_bounds⟩
  intro q
  unfold encodeSample
  rw [jsClamp11_idem]

/-- Claim C8 (amended) witness: concrete push of an out-of-range sample,
with concrete encoder values on both sides of the clamp. -/
theorem record_push_amended_witness :
    (workletSample cexEnv recGainState 4 8000 1).1.recordBuffer
        = recGainState.recordBuffer
          ++ [(workletSample cexEnv recGainState 4 8000 1).2.1]
      ∧ encodeSample (-4) = encodeSample (jsClamp11 (-4))
      ∧ (-32768 ≤ encodeSample (-4) ∧ encodeSample (-4) ≤ 32767) :=
  ⟨(record_push_amended cexEnv recGainState 4 8000 1 rfl (by decide)).1,
   (record_push_amended cexEnv recGainState 4 8000 1 rfl (by decide)).2.1 (-4),
   (record_push_amended cexEnv recGainState 4 8000 1 rfl (by decide)).2.2 (-4)⟩

/-! ## WAV layout lemmas -/

lemma wavHeader_length (len : Nat) (r : Int) : (wavHeader len r).length = 44 := by
  simp [wavHeader, u32le, u16le]

lemma wavData_length (l : List ℚ) :
    (l.flatMap (fun s => i16le (encodeSample s))).length = 2 * l.length := by
  induction l with
  | nil => simp
  | cons x xs ih =>
    rw [List.flatMap_cons, List.length_append, ih]
    simp only [i16le, u16le, List.length_cons, List.length_nil, List.length]
    omega

lemma readI16_i16le (v : Int) (rest : List Nat)
    (h1 : -32768 ≤ v) (h2 : v ≤ 32767) :
    readI16 (i16le v ++ rest) 0 = v := by
  have hr : readU16 (i16le v ++ rest) 0
      = (v % 65536).toNat % 256 + 256 * ((v % 65536).toNat / 256 % 256) :=
    rfl
  unfold readI16
  rw [hr]
  split_ifs with h <;> omega

lemma readI16_skip (v0 v1 : Nat) (rest : List Nat) (k : Nat) :
    readI16 (v0 :: v1 :: rest) (k + 2) = readI16 rest k := by
  unfold readI16 readU16
  have hdrop : (v0 :: v1 :: rest).drop (k + 2) = rest.drop k := by
    rw [show k + 2 = (k + 1) + 1 from rfl, List.drop_succ_cons,
      List.drop_succ_cons]
  rw [hdrop]

lemma readI16_wavData (l : List ℚ) : ∀ i, i < l.length →
    readI16 (l.flatMap (fun s => i16le (encodeSample s))) (2 * i)
      = encodeSample (l.getD i 0) := by
  induction l with
  | nil =>
    intro i h
    simp at h
  | cons x xs ih =>
    intro i h
    cases i with
    | zero =>
      rw [List.flatMap_cons, show 2 * 0 = 0 from rfl, List.getD_cons_zero]
      exact readI16_i16le (encodeSample x) _
        (encodeSample_bounds x).1 (encodeSample_bounds x).2
    | succ i2 =>
      rw [List.flatMap_cons, List.getD_cons_succ]
      obtain ⟨v0, v1, hv⟩ :
          ∃ v0 v1, i16le (encodeSample x) = [v0, v1] := ⟨_, _, rfl⟩
      rw [hv, List.cons_append, List.cons_append, List.nil_append,
        show 2 * (i2 + 1) = 2 * i2 + 2 by ring, readI16_skip]
      exact ih i2 (by simpa using Nat.lt_of_succ_lt_succ (by simpa using h))

lemma readI16_append44 (hd d : List Nat) (k : Nat) (hlen : hd.length = 44) :
    readI16 (hd ++ d) (44 + k) = readI16 d k := by
  have hdrop : ∀ m, (hd ++ d).drop (44 + m) = d.drop m := by
    intro m
    rw [← List.drop_drop, List.drop_left' hlen]
  unfold readI16 readU16
  rw [hdrop]

/-- Claim C3 counterexample: the byte-rate header field is written through
32-bit `setUint32`, so at sample rate `2^31` it wraps to 0 instead of
decoding back to `R * 2 = 2^32`. -/
theorem makeWav_byteRate_wrap_cex :
    (readU32 (makeWavBlob [] (2 ^ 31)) 28 : Int) ≠ 2 ^ 31 * 2 := by
  decide

set_option maxHeartbeats 2000000 in
/-- Claim C3 (amended): for a sample rate whose doubled value fits a 32-bit
field (`0 ≤ R`, `2R < 2^32`) and a sample count with `36 + 2N < 2^32`, the
encoder produces exactly `44 + 2N` bytes whose header fields decode back to
format tag 1, mono, rate `R`, byte rate `2R`, block align 2, 16 bits per
sample and data length `2N`, followed by each sample as the little-endian
signed 16-bit value `round(clamp(s, -1, 1) * (s < 0 ? 32768 : 32767))`. -/
theorem makeWav_spec_amended (samples : List ℚ) (R : Int)
    (hR0 : 0 ≤ R) (hR : 2 * R < 4294967296)
    (hN : 36 + 2 * samples.length < 4294967296) :
    (makeWavBlob samples R).length = 44 + 2 * samples.length
      ∧ readU16 (makeWavBlob samples R) 20 = 1
      ∧ readU16 (makeWavBlob samples R) 22 = 1
      ∧ (readU32 (makeWavBlob samples R) 24 : Int) = R
      ∧ (readU32 (makeWavBlob samples R) 28 : Int) = 2 * R
      ∧ readU16 (makeWavBlob samples R) 32 = 2
      ∧ readU16 (makeWavBlob samples R) 34 = 16
      ∧ readU32 (makeWavBlob samples R) 40 = 2 * samples.length
      ∧ ∀ i, i < samples.length →
          readI16 (makeWavBlob samples R) (44 + 2 * i)
            = encodeSample (samples.getD i 0) := by
  have hpow : (2 : Int) ^ 32 = 4294967296 := by norm_num
  refine ⟨?_, rfl, rfl, ?_, ?_, rfl, rfl, ?_, ?_⟩
  · unfold makeWavBlob
    rw [List.length_append, wavHeader_length, wavData_length]
  · have h24 : readU32 (makeWavBlob samples R) 24
        = (toUint32 R % 256 + 256 * (toUint32 R / 256 % 256))
          + 65536 * (toUint32 R / 65536 % 256
            + 256 * (toUint32 R / 16777216 % 256)) := rfl
    rw [h24]
    unfold toUint32
    rw [hpow]
    omega
  · have h28 : readU32 (makeWavBlob samples R) 28
        = (toUint32 (R * 2) % 256 + 256 * (toUint32 (R * 2) / 256 % 256))
          + 65536 * (toUint32 (R * 2) / 65536 % 256
            + 256 * (toUint32 (R * 2) / 16777216 % 256)) := rfl
    rw [h28]
    unfold toUint32
    rw [hpow]
    omega
  · have h40 : readU32 (makeWavBlob samples R) 40
        = (samples.length * 2 % 256
            + 256 * (samples.length * 2 / 256 % 256))
          + 65536 * (samples.length * 2 / 65536 % 256
            + 256 * (samples.length * 2 / 16777216 % 256)) := rfl
    rw [h40]
    omega
  · intro i hi
    unfold makeWavBlob
    rw [show 44 + 2 * i = 44 + (2 * i) from rfl,
      readI16_append44 _ _ _ (wavHeader_length samples.length R)]
    exact readI16_wavData samples i hi

/-- Claim C3 (amended) witness: one concrete sample at rate 44100. -/
theorem makeWav_spec_amended_witness :
    (makeWavBlob [1 / 2] 44100).length = 46
      ∧ (readU32 (makeWavBlob [1 / 2] 44100) 24 : Int) = 44100
      ∧ (readU32 (makeWavBlob [1 / 2] 44100) 28 : Int) = 88200
      ∧ readI16 (makeWavBlob [1 / 2] 44100) 44 = encodeSample (1 / 2) := by
  obtain ⟨h1, _, _, h24, h28, _, _, _, hs⟩ :=
    makeWav_spec_amended [1 / 2] 44100 (by norm_num) (by norm_num)
      (by norm_num)
  refine ⟨by rw [h1]; rfl, h24, by rw [h28]; norm_num, ?_⟩
  have := hs 0 (by norm_num)
  simpa using this

end Bytebeat
